import Mathlib

/-!
Verification of the conversation-state / streaming-response loop of a
minimal Streamlit chat application (`app.py`).

The embedding is shallow: the Streamlit session state becomes explicit
state passing, the chat transcript is a `List Turn`, the provider stream
is a list of chunks followed by an optional raised error, and each UI
`markdown` call on the placeholder is recorded in a display trace.
-/

namespace JinroApp

/-- A chat message dictionary: `role` and `content` string fields
(`app.py` stores messages as plain dicts with these two keys). -/
structure Turn where
  role : String
  content : String
deriving DecidableEq, Repr

/-- The session transcript `st.session_state.messages`: an ordered list
of turns. -/
abbrev Transcript := List Turn

/-- The seeded assistant welcome message (`app.py` lines 47-49). -/
def welcomeTurn : Turn :=
  { role := "assistant"
    content := "안녕하세요! 저는 코랩 환경에 최적화된 코딩 비서 제미나이입니다. 어떤 파이썬 코드가 필요하거나, **오류가 난 코드를 보여주시면 바로 고쳐드릴게요!**" }

/-- Initial value of `st.session_state.messages` (`app.py` lines 45-49). -/
def initMessages : Transcript := [welcomeTurn]

/-- One part of a wire-format content entry: the dict `\x7b"text": ...\x7d`. -/
structure Part where
  text : String
deriving DecidableEq, Repr

/-- One entry of the `history` list sent to the provider:
the dict with a `role` string and a `parts` list (`app.py` lines 68-70). -/
structure WireMsg where
  role : String
  parts : List Part
deriving DecidableEq, Repr

/-- The `role_map` dict of `app.py` line 66, as an association list. -/
def role_map : List (String × String) := [("user", "user"), ("assistant", "model")]

/-- The history-construction loop of `app.py` lines 64-70: for each
message whose role is a key of `role_map`, append the mapped role together
with the content wrapped in a single-part list; other messages are
skipped. -/
def buildHistory : Transcript → List WireMsg
  | [] => []
  | m :: rest =>
    match role_map.lookup m.role with
    | some r => { role := r, parts := [{ text := m.content }] } :: buildHistory rest
    | none => buildHistory rest

/-- One streamed chunk. `chunk.text` may be absent (`None`) or a string;
the loop guard `if chunk.text:` treats `None` and `""` alike as falsy. -/
structure Chunk where
  text : Option String
deriving DecidableEq, Repr

/-- The in-progress cursor marker appended after each fragment
(`app.py` line 88). -/
def cursor : String := "▌"

/-- The streaming accumulation loop of `app.py` lines 85-88: starting
from accumulator `acc`, fold over the chunks; a truthy `chunk.text` is
concatenated onto the accumulator and the placeholder is redrawn with the
cursor marker appended.  Returns the final accumulator together with the
trace of placeholder `markdown` calls made inside the loop. -/
def streamLoop (acc : String) : List Chunk → String × List String
  | [] => (acc, [])
  | c :: rest =>
    match c.text with
    | some t =>
      if t = "" then streamLoop acc rest
      else
        let acc2 := acc ++ t
        let r := streamLoop acc2 rest
        (r.1, (acc2 ++ cursor) :: r.2)
    | none => streamLoop acc rest

/-- Lines 75-90 on the success path: `full_response = ""`, the
accumulation loop runs over the whole stream, and afterwards the
placeholder is redrawn once more with the bare accumulator (line 90,
no cursor).  Returns the final `full_response` and the full display
trace of the placeholder. -/
def runStreamSuccess (chunks : List Chunk) : String × List String :=
  let r := streamLoop "" chunks
  (r.1, r.2 ++ [r.1])

/-- An exception raised by the streaming call: either a provider
`errors.APIError` or any other exception, each carrying its string
rendering `\x7be\x7d`. -/
inductive StreamError where
  | apiError (e : String)
  | unexpected (e : String)
deriving DecidableEq, Repr

/-- The `error_message` synthesized in the two `except` blocks
(`app.py` lines 92-99). -/
def errorMessage : StreamError → String
  | .apiError e => "API 호출 중 오류가 발생했습니다: " ++ e
  | .unexpected e => "예상치 못한 오류가 발생했습니다: " ++ e

/-- Outcome of the `try` block of lines 77-99: on success
`full_response` is the accumulated text; on an exception the except
block overwrites `full_response` with the synthesized error message. -/
def fullResponse (chunks : List Chunk) (err : Option StreamError) : String :=
  match err with
  | none => (runStreamSuccess chunks).1
  | some e => errorMessage e

/-- One run of the submission body (`app.py` lines 57-102) on a given
prior transcript: append the user turn, build the history, consume the
stream (or its error), and append the assistant turn holding
`full_response`. -/
def handleSubmission (messages : Transcript) (prompt : String)
    (chunks : List Chunk) (err : Option StreamError) : Transcript :=
  let messages := messages ++ [{ role := "user", content := prompt }]
  messages ++ [{ role := "assistant", content := fullResponse chunks err }]

/-- The rendered history actually passed as `contents=` to
`generate_content_stream` for a submission: the user turn is appended
first (line 59), then lines 64-70 render the whole transcript. -/
def renderedRequest (messages : Transcript) (prompt : String) : List WireMsg :=
  buildHistory (messages ++ [{ role := "user", content := prompt }])

/-- One user submission with its observed stream behaviour. -/
structure Submission where
  prompt : String
  chunks : List Chunk
  err : Option StreamError

/-- A whole session: the transcript is seeded with the welcome turn and
each submission runs the handler in order. -/
def runSession (subs : List Submission) : Transcript :=
  subs.foldl (fun ms s => handleSubmission ms s.prompt s.chunks s.err) initMessages

/-- Startup outcome (`app.py` lines 20-33 and the submission loop):
`halted` records whether `st.stop()` ran before the submission loop,
`transcript` is the final transcript (never created when halted), and
`networkCalls` counts `generate_content_stream` invocations. -/
structure SessionOutcome where
  halted : Bool
  transcript : Transcript
  networkCalls : Nat
deriving Repr

/-- The whole script run: `api_key = os.getenv("GEMINI_API_KEY")`; a
falsy key (absent or empty) shows an error and stops; a failing client
construction also stops; otherwise the session runs, issuing one
streaming call per submission. -/
def runApp (apiKey : Option String) (clientOk : Bool)
    (subs : List Submission) : SessionOutcome :=
  if apiKey = none ∨ apiKey = some "" then
    { halted := true, transcript := [], networkCalls := 0 }
  else if clientOk = false then
    { halted := true, transcript := [], networkCalls := 0 }
  else
    { halted := false, transcript := runSession subs, networkCalls := subs.length }

/-- The wire message a recognized turn renders to. -/
def wireOf (m : Turn) : WireMsg :=
  { role := if m.role = "user" then "user" else "model"
    parts := [{ text := m.content }] }

/-- Whether a turn's role is a key of `role_map`. -/
def recognized (m : Turn) : Bool :=
  m.role = "user" || m.role = "assistant"

/-- The concrete fragment sequence used by the spec's streaming example. -/
def demoChunks : List Chunk := [⟨some "Hel"⟩, ⟨some "lo"⟩, ⟨some " world"⟩]

/-! ## Helper lemmas -/

theorem handleSubmission_eq (ms : Transcript) (p : String)
    (cs : List Chunk) (err : Option StreamError) :
    handleSubmission ms p cs err =
      ms ++ [{ role := "user", content := p },
             { role := "assistant", content := fullResponse cs err }] := by
  simp [handleSubmission]

theorem lookup_role_map (r : String) :
    role_map.lookup r =
      if r = "user" then some "user"
      else if r = "assistant" then some "model" else none := by
  simp only [role_map, List.lookup]
  rcases eq_or_ne r "user" with h | h
  · simp [h]
  · rcases eq_or_ne r "assistant" with h2 | h2
    · simp [h, h2]
    · have e1 : (r == "user") = false := by simp [h]
      have e2 : (r == "assistant") = false := by simp [h2]
      simp [e1, e2, h, h2]

theorem buildHistory_append (a b : Transcript) :
    buildHistory (a ++ b) = buildHistory a ++ buildHistory b := by
  induction a with
  | nil => rfl
  | cons m rest ih =>
    simp only [List.cons_append, buildHistory]
    cases role_map.lookup m.role <;> simp [ih]

theorem streamLoop_falsy (cs : List Chunk)
    (h : ∀ c ∈ cs, c.text = none ∨ c.text = some "") (acc : String) :
    streamLoop acc cs = (acc, []) := by
  induction cs with
  | nil => rfl
  | cons c rest ih =>
    rcases h c (List.mem_cons_self c rest) with hc | hc <;>
      simp [streamLoop, hc, ih fun x hx => h x (List.mem_cons_of_mem c hx)]

theorem foldl_handle_length (subs : List Submission) :
    ∀ ms : Transcript,
      (subs.foldl (fun ms s => handleSubmission ms s.prompt s.chunks s.err) ms).length
        = ms.length + 2 * subs.length := by
  induction subs with
  | nil => intro ms; simp
  | cons s rest ih =>
    intro ms
    rw [List.foldl_cons, ih, handleSubmission_eq, List.length_append]
    simp
    omega

theorem foldl_handle_extends (subs : List Submission) :
    ∀ ms : Transcript, ∃ t : Transcript,
      ms ++ t = subs.foldl (fun ms s => handleSubmission ms s.prompt s.chunks s.err) ms := by
  induction subs with
  | nil => intro ms; exact ⟨[], by simp⟩
  | cons s rest ih =>
    intro ms
    obtain ⟨u, hu⟩ := ih (handleSubmission ms s.prompt s.chunks s.err)
    refine ⟨[{ role := "user", content := s.prompt },
             { role := "assistant", content := fullResponse s.chunks s.err }] ++ u, ?_⟩
    rw [List.foldl_cons, ← hu, handleSubmission_eq]
    simp

/-! ## Claim theorems -/

/-- C1: for every sequence of N user submissions that all succeed, the
transcript ends with length 1 + 2N: one seeded welcome turn plus one user
turn and one assistant turn per submission. -/
theorem transcript_length_after_session (subs : List Submission)
    (_h : ∀ s ∈ subs, s.err = none) :
    (runSession subs).length = 1 + 2 * subs.length := by
  have := foldl_handle_length subs initMessages
  simpa [runSession, initMessages] using this

theorem transcript_length_after_session_witness :
    (∀ s ∈ [Submission.mk "hi" demoChunks none], s.err = none) ∧
      (runSession [Submission.mk "hi" demoChunks none]).length = 1 + 2 * 1 := by
  refine ⟨by simp, transcript_length_after_session [Submission.mk "hi" demoChunks none] (by simp)⟩

/-- C2: rendering a transcript whose turns all have role `user` or
`assistant` yields the same number of entries in the same order, role
mapped user to "user" and assistant to "model", each text wrapped in a
single-part list. -/
theorem render_recognized_roles (ms : Transcript)
    (h : ∀ m ∈ ms, m.role = "user" ∨ m.role = "assistant") :
    buildHistory ms = ms.map wireOf ∧ (buildHistory ms).length = ms.length := by
  have key : buildHistory ms = ms.map wireOf := by
    induction ms with
    | nil => rfl
    | cons m rest ih =>
      have hm := h m (List.mem_cons_self m rest)
      have hrest := ih fun x hx => h x (List.mem_cons_of_mem m hx)
      rcases hm with hm | hm <;>
        simp [buildHistory, lookup_role_map, hm, wireOf, hrest]
  exact ⟨key, by simp [key]⟩

theorem render_recognized_roles_witness :
    (∀ m ∈ initMessages, m.role = "user" ∨ m.role = "assistant") ∧
      (buildHistory initMessages = initMessages.map wireOf ∧
        (buildHistory initMessages).length = initMessages.length) :=
  ⟨by simp [initMessages, welcomeTurn],
    render_recognized_roles initMessages (by simp [initMessages, welcomeTurn])⟩

/-- C3: consuming the fragment sequence ["Hel", "lo", " world"] displays
the accumulator "Hello world" after the stream ends, and the assistant
turn appended to the transcript holds exactly "Hello world", with no
trailing cursor marker. -/
theorem demo_stream_accumulation :
    (runStreamSuccess demoChunks).1 = "Hello world" ∧
    (runStreamSuccess demoChunks).2 =
      ["Hel" ++ cursor, "Hello" ++ cursor, "Hello world" ++ cursor, "Hello world"] ∧
    (handleSubmission initMessages "hi" demoChunks none).getLast? =
      some { role := "assistant", content := "Hello world" } := by
  refine ⟨by decide, by decide, ?_⟩
  simp [handleSubmission_eq]
  decide

/-- C4: when the streaming call raises (a provider APIError or any other
exception), the assistant turn appended for that submission holds the
synthesized error message: it is non-empty, contains the error indicator
"오류가 발생했습니다: ", and the transcript still grows by exactly the user
turn and one assistant turn — the append is never skipped. -/
theorem failure_appends_error_turn (ms : Transcript) (p : String)
    (cs : List Chunk) (e : StreamError) :
    handleSubmission ms p cs (some e) =
      ms ++ [{ role := "user", content := p },
             { role := "assistant", content := errorMessage e }] ∧
    (errorMessage e).length > 0 ∧
    ∃ pre post, (errorMessage e).data =
      pre ++ ("오류가 발생했습니다: ").data ++ post := by
  refine ⟨handleSubmission_eq ms p cs (some e), ?_, ?_⟩
  · cases e with
    | apiError s =>
      show 0 < ("API 호출 중 오류가 발생했습니다: " ++ s).length
      rw [String.length_append]
      have hpos : 0 < ("API 호출 중 오류가 발생했습니다: ").length := by decide
      omega
    | unexpected s =>
      show 0 < ("예상치 못한 오류가 발생했습니다: " ++ s).length
      rw [String.length_append]
      have hpos : 0 < ("예상치 못한 오류가 발생했습니다: ").length := by decide
      omega
  · cases e with
    | apiError s =>
      refine ⟨("API 호출 중 ").data, s.data, ?_⟩
      simp only [errorMessage, String.data_append]
      rfl
    | unexpected s =>
      refine ⟨("예상치 못한 ").data, s.data, ?_⟩
      simp only [errorMessage, String.data_append]
      rfl

/-- C5: when the API key is absent from the environment at startup, the
script stops before the submission loop: the outcome is halted, no
transcript exists (no mutation happened) and zero network calls were
attempted. -/
theorem missing_key_halts (clientOk : Bool) (subs : List Submission) :
    runApp none clientOk subs =
      { halted := true, transcript := [], networkCalls := 0 } := by
  simp [runApp]

/-- C6: rendering silently drops each turn whose role is not a key of
the role map; no error is raised (the function is total) and the rendered
sequence is exactly the recognized turns, in order, each mapped to its
wire form. -/
theorem render_drops_unrecognized (ms : Transcript) :
    buildHistory ms = (ms.filter recognized).map wireOf := by
  induction ms with
  | nil => rfl
  | cons m rest ih =>
    by_cases hu : m.role = "user"
    · simp [buildHistory, lookup_role_map, hu, List.filter, recognized, wireOf, ih]
    · by_cases ha : m.role = "assistant"
      · simp [buildHistory, lookup_role_map, hu, ha, List.filter, recognized, wireOf, ih]
      · simp [buildHistory, lookup_role_map, hu, ha, List.filter, recognized, ih]

/-- C7: the render step is a pure function of the transcript: two calls
on identical transcripts produce identical output. -/
theorem render_deterministic (ms1 ms2 : Transcript) (h : ms1 = ms2) :
    buildHistory ms1 = buildHistory ms2 := by
  rw [h]

theorem render_deterministic_witness :
    initMessages = initMessages ∧ buildHistory initMessages = buildHistory initMessages :=
  ⟨rfl, render_deterministic initMessages initMessages rfl⟩

/-- C8: the transcript starts as exactly the one assistant welcome turn,
and every later session state extends each earlier state by appended
turns only: whenever one submission sequence extends another, the later
transcript is the earlier one with turns appended at the end. -/
theorem transcript_append_only (subs1 subs2 : List Submission)
    (h : ∃ t, subs1 ++ t = subs2) :
    runSession [] = [welcomeTurn] ∧ welcomeTurn.role = "assistant" ∧
      ∃ t : Transcript, runSession subs1 ++ t = runSession subs2 := by
  refine ⟨rfl, rfl, ?_⟩
  obtain ⟨t, rfl⟩ := h
  have hfold : runSession (subs1 ++ t) =
      t.foldl (fun ms s => handleSubmission ms s.prompt s.chunks s.err) (runSession subs1) := by
    simp [runSession, List.foldl_append]
  obtain ⟨u, hu⟩ := foldl_handle_extends t (runSession subs1)
  exact ⟨u, by rw [hfold, ← hu]⟩

theorem transcript_append_only_witness :
    (∃ t, [] ++ t = [Submission.mk "hi" demoChunks none]) ∧
      (runSession [] = [welcomeTurn] ∧ welcomeTurn.role = "assistant" ∧
        ∃ t : Transcript, runSession [] ++ t = runSession [Submission.mk "hi" demoChunks none]) :=
  ⟨⟨[Submission.mk "hi" demoChunks none], rfl⟩,
    transcript_append_only [] [Submission.mk "hi" demoChunks none]
      ⟨[Submission.mk "hi" demoChunks none], rfl⟩⟩

/-- C9: the user turn is appended before the request is rendered, so the
rendered history sent to the provider is non-empty and its last entry has
role "user" with text equal to the just-submitted prompt. -/
theorem rendered_request_ends_with_prompt (ms : Transcript) (p : String) :
    renderedRequest ms p ≠ [] ∧
    (renderedRequest ms p).getLast? =
      some { role := "user", parts := [{ text := p }] } := by
  have hsplit : renderedRequest ms p =
      buildHistory ms ++ [{ role := "user", parts := [{ text := p }] }] := by
    rw [renderedRequest, buildHistory_append]
    rfl
  constructor
  · rw [hsplit]; simp
  · rw [hsplit]; simp

/-- C10: a stream that completes without error and yields only falsy
fragments (text absent or empty) leaves the accumulator empty: such
fragments are skipped, the only placeholder display is the final empty
accumulator, and the appended assistant turn has empty content. -/
theorem falsy_fragments_contribute_nothing (ms : Transcript) (p : String)
    (cs : List Chunk) (h : ∀ c ∈ cs, c.text = none ∨ c.text = some "") :
    fullResponse cs none = "" ∧
    runStreamSuccess cs = ("", [""]) ∧
    (handleSubmission ms p cs none).getLast? =
      some { role := "assistant", content := "" } ∧
    (∀ (acc : String) (rest : List Chunk),
      streamLoop acc (⟨none⟩ :: rest) = streamLoop acc rest ∧
      streamLoop acc (⟨some ""⟩ :: rest) = streamLoop acc rest) := by
  have hloop := streamLoop_falsy cs h ""
  refine ⟨?_, ?_, ?_, ?_⟩
  · simp [fullResponse, runStreamSuccess, hloop]
  · simp [runStreamSuccess, hloop]
  · rw [handleSubmission_eq]
    simp [fullResponse, runStreamSuccess, hloop]
  · intro acc rest
    exact ⟨by simp [streamLoop], by simp [streamLoop]⟩

theorem falsy_fragments_contribute_nothing_witness :
    (∀ c ∈ [Chunk.mk none, Chunk.mk (some "")], c.text = none ∨ c.text = some "") ∧
      (fullResponse [Chunk.mk none, Chunk.mk (some "")] none = "" ∧
        runStreamSuccess [Chunk.mk none, Chunk.mk (some "")] = ("", [""]) ∧
        (handleSubmission initMessages "hi" [Chunk.mk none, Chunk.mk (some "")] none).getLast? =
          some { role := "assistant", content := "" } ∧
        (∀ (acc : String) (rest : List Chunk),
          streamLoop acc (⟨none⟩ :: rest) = streamLoop acc rest ∧
          streamLoop acc (⟨some ""⟩ :: rest) = streamLoop acc rest)) :=
  ⟨by simp, falsy_fragments_contribute_nothing initMessages "hi"
    [Chunk.mk none, Chunk.mk (some "")] (by simp)⟩

end JinroApp
